import Mathlib

/-!
Shallow embedding of the sosw repository core (src/sosw/managers/ecology.py and
src/sosw/components/config.py), with theorems settling the frozen claims about
the natural-language specification of the program.

Python machine model: integers are Lean Int; Python dicts are association
lists with insert-or-overwrite semantics that keep the position of an existing
key (as Python dicts do); raising an exception is the error side of Except.
-/

/-- Kinds of Python exceptions that the embedded code can raise.  Only the kind
is modelled, not the message text. -/
inductive PyExc where
  | keyError : PyExc
  | indexError : PyExc
  | typeError : PyExc
  | jsonDecodeError : PyExc
  | valueError : PyExc
  | runtimeError : PyExc
  | assertionError : PyExc
deriving DecidableEq

instance {ε α : Type} [DecidableEq ε] [DecidableEq α] : DecidableEq (Except ε α) := fun a b =>
  match a, b with
  | .ok x, .ok y => if h : x = y then .isTrue (by simp [h]) else .isFalse (by simp [h])
  | .error x, .error y => if h : x = y then .isTrue (by simp [h]) else .isFalse (by simp [h])
  | .ok _, .error _ => .isFalse (by simp)
  | .error _, .ok _ => .isFalse (by simp)

/-- Lookup in an association list, the Python dict read `d[k]` / `d.get(k)`. -/
def lookupA {α β : Type} [DecidableEq α] : List (α × β) → α → Option β
  | [], _ => none
  | (k, v) :: rest, key => if k = key then some v else lookupA rest key

/-- Insert-or-overwrite in an association list, the Python dict write
`d[k] = v`: an existing key keeps its position, a new key goes to the end. -/
def insertA {α β : Type} [DecidableEq α] : List (α × β) → α → β → List (α × β)
  | [], key, val => [(key, val)]
  | (k, v) :: rest, key, val =>
    if k = key then (key, val) :: rest else (k, v) :: insertA rest key val

/-- Maximum of a Python list, `max(lst)`; none for the empty list (where Python
raises ValueError). -/
def listMax : List Int → Option Int
  | [] => none
  | x :: xs => some (xs.foldl max x)

/- ===================== ecology.py ===================== -/

/-- ECO_STATUSES from ecology.py lines 27-33. -/
def ECO_STATUSES : List (Int × String) :=
  [(0, "Bad"), (1, "Poor"), (2, "Moderate"), (3, "Good"), (4, "High")]

/-- The closed set of comparison operators reachable through
`getattr(operator, metric.get("feeling_comparison_operator"))`
for the comparison names the spec lists. -/
inductive CmpOp where
  | lt : CmpOp
  | le : CmpOp
  | gt : CmpOp
  | ge : CmpOp
  | eq : CmpOp
  | ne : CmpOp
deriving DecidableEq

/-- Semantics of the operator module functions on numbers. -/
def CmpOp.apply : CmpOp → Int → Int → Bool
  | .lt, a, b => decide (a < b)
  | .le, a, b => decide (a ≤ b)
  | .gt, a, b => decide (a > b)
  | .ge, a, b => decide (a ≥ b)
  | .eq, a, b => decide (a = b)
  | .ne, a, b => decide (a ≠ b)

/-- Query specification mapping passed as keyword arguments to the metrics
client (`health_metric["details"]`). -/
abbrev Details := List (String × String)

/-- A health metric configuration dictionary: `details`, `feelings` and
`feeling_comparison_operator` keys. -/
structure HealthMetric where
  details : Details
  feelings : List (Int × Int)
  feeling_comparison_operator : CmpOp
deriving DecidableEq

/-- Insert a pair into a list sorted by key in descending order. -/
def insertPairDesc (p : Int × Int) : List (Int × Int) → List (Int × Int)
  | [] => [p]
  | q :: rest => if p.1 ≥ q.1 then p :: q :: rest else q :: insertPairDesc p rest

/-- The OrderedDict of ecology.py lines 129-130: feelings items ordered by
`sorted(metric["feelings"].keys(), reverse=True)` (keys are distinct). -/
def sortDesc : List (Int × Int) → List (Int × Int)
  | [] => []
  | p :: rest => insertPairDesc p (sortDesc rest)

/-- The loop of ecology.py lines 132-144: walk the ordered feelings carrying
`last_target` (seeded 0); raise ValueError when `op(target, last_target)`
holds; return `health` when `op(value, target)` holds; else return 0. -/
def healthWalk (op : CmpOp) (value : Int) : List (Int × Int) → Int → Except PyExc Int
  | [], _ => .ok 0
  | (health, target) :: rest, last_target =>
    if op.apply target last_target then
      .error .valueError
    else if op.apply value target then
      .ok health
    else
      healthWalk op value rest target

/-- EcologyManager.get_health, ecology.py lines 120-144. -/
def get_health (value : Int) (metric : HealthMetric) : Except PyExc Int :=
  healthWalk metric.feeling_comparison_operator value (sortDesc metric.feelings) 0

/-- A Labourer as consumed by ecology.py: its id and the values of its
`health_metrics` dict (absence of the attribute is the empty list, matching
`getattr(labourer, "health_metrics", dict())`). -/
structure Labourer where
  id : String
  health_metrics : List HealthMetric

/-- The external TaskManager collaborator interface used by ecology.py. -/
structure TaskManagerRef where
  get_count_of_running_tasks_for_labourer : Labourer → Int
  get_average_labourer_duration : Labourer → Int

/-- Modelled from the spec: `make_hash` from `sosw.components.helpers` is not
under src/; the spec says the cache key is a content hash of the `details`
mapping, modelled here as the content itself, an ideal collision-free
content key. -/
def make_hash (details : Details) : Details := details

/-- The state of an EcologyManager instance: the attributes of ecology.py
lines 40-43, plus `fetch_log`, the observable trace of the queries sent to the
external metrics client by `fetch_metric_stats`. -/
structure EcologyManager where
  running_tasks : List (String × Int)
  health_metrics : Option (List (Details × Int))
  task_client : Option TaskManagerRef
  cloudwatch_client : Details → Int
  fetch_log : List Details

/-- The initial attribute values of ecology.py lines 40-43: empty counter
dict, `health_metrics = None`, no task client registered. -/
def initialEcologyManager (cloudwatch : Details → Int) : EcologyManager :=
  { running_tasks := [], health_metrics := none, task_client := none,
    cloudwatch_client := cloudwatch, fetch_log := [] }

/-- EcologyManager.register_task_manager, ecology.py lines 54-70. -/
def register_task_manager (m : EcologyManager) (task_manager : TaskManagerRef) : EcologyManager :=
  { m with task_client := some task_manager, running_tasks := [], health_metrics := some [] }

/-- EcologyManager.fetch_metric_stats, ecology.py lines 78-82: query the
metrics client and record the call in the trace. -/
def fetch_metric_stats (m : EcologyManager) (details : Details) : Int × EcologyManager :=
  (m.cloudwatch_client details, { m with fetch_log := m.fetch_log ++ [details] })

/-- The loop of EcologyManager.get_labourer_status, ecology.py lines 102-113:
for each metric, hash its details; a membership test on a `None` cache is a
TypeError; on a cache miss fetch and store the sample; then reduce the health
by `min` with `get_health` of the cached sample. -/
def statusLoop : EcologyManager → Int → List HealthMetric → Except PyExc (Int × EcologyManager)
  | m, health, [] => .ok (health, m)
  | m, health, hm :: rest =>
    match m.health_metrics with
    | none => .error .typeError
    | some cache =>
      let mh := make_hash hm.details
      let step :=
        match lookupA cache mh with
        | none =>
          let fetched := fetch_metric_stats m hm.details
          ({ fetched.2 with health_metrics := some (insertA cache mh fetched.1) },
           insertA cache mh fetched.1)
        | some _ => (m, cache)
      match lookupA step.2 mh with
      | none => .error .keyError
      | some value =>
        match get_health value hm with
        | .error e => .error e
        | .ok h => statusLoop step.1 (min health h) rest

/-- EcologyManager.get_labourer_status, ecology.py lines 85-117: start from
`max(map(lambda x: x[0], ECO_STATUSES))` and run the metric loop. -/
def get_labourer_status (m : EcologyManager) (labourer : Labourer) :
    Except PyExc (Int × EcologyManager) :=
  statusLoop m ((listMax (ECO_STATUSES.map Prod.fst)).getD 0) labourer.health_metrics

/-- EcologyManager.count_running_tasks_for_labourer, ecology.py lines 147-164. -/
def count_running_tasks_for_labourer (m : EcologyManager) (labourer : Labourer) :
    Except PyExc (Int × EcologyManager) :=
  match m.task_client with
  | none => .error .runtimeError
  | some tc =>
    let fresh := insertA m.running_tasks labourer.id
      (tc.get_count_of_running_tasks_for_labourer labourer)
    let m1 :=
      match lookupA m.running_tasks labourer.id with
      | none => { m with running_tasks := fresh }
      | some _ => m
    .ok ((lookupA m1.running_tasks labourer.id).getD 0, m1)

/-- EcologyManager.get_labourer_average_duration, ecology.py lines 176-193. -/
def get_labourer_average_duration (m : EcologyManager) (labourer : Labourer) :
    Except PyExc Int :=
  match m.task_client with
  | none => .error .runtimeError
  | some tc => .ok (tc.get_average_labourer_duration labourer)

/- ===================== claim C1 ===================== -/

/-- The metric of the C1 spec example: feelings {0:10, 1:20, 2:30} and
comparison operator `>=`. -/
def metricC1 : HealthMetric :=
  { details := [], feelings := [(0, 10), (1, 20), (2, 30)],
    feeling_comparison_operator := .ge }

/-- C1: the claim says get_health with feelings {0:10,1:20,2:30} and operator
`>=` returns 1 for sample 25, 2 for sample 35 and 0 for sample 5.  The code
instead raises ValueError on every one of these calls: the very first step of
the walk checks `op(target, last_target)` with the seed `last_target = 0`,
and `30 >= 0` holds, so the validation fires on a perfectly monotonic
configuration.  This contradicts the intent recorded in the code itself (the
comment `Order and validate the feelings` and the error text blaming an
invalid order of feeling values), so the code is a slip: code_bug. -/
theorem c1_get_health_raises_on_documented_example :
    get_health 25 metricC1 = .error .valueError ∧
    get_health 35 metricC1 = .error .valueError ∧
    get_health 5 metricC1 = .error .valueError := by
  decide

/- ===================== claim C2 ===================== -/

/-- Stated from the amended claim: walking the descending feelings with the
lastTarget seed 0, some step is reached (no earlier step satisfied the sample
test) at which `operator(currentThreshold, lastTarget)` HOLDS. -/
def raiseConditionSpec (op : CmpOp) (value : Int) : List (Int × Int) → Int → Bool
  | [], _ => false
  | (_, target) :: rest, last_target =>
    op.apply target last_target ||
      (!op.apply value target && raiseConditionSpec op value rest target)

theorem healthWalk_error_iff (op : CmpOp) (value : Int) :
    ∀ (l : List (Int × Int)) (last : Int),
      (healthWalk op value l last = .error .valueError ↔
        raiseConditionSpec op value l last = true)
  | [], last => by simp [healthWalk, raiseConditionSpec]
  | (h, t) :: rest, last => by
    simp only [healthWalk, raiseConditionSpec]
    cases hb : op.apply t last
    · cases hv : op.apply value t
      · simpa [hb, hv] using healthWalk_error_iff op value rest t
      · simp [hb, hv]
    · simp [hb]

theorem statusLoop_error_of_bad_metric :
    ∀ (metrics : List HealthMetric) (m : EcologyManager) (cache : List (Details × Int))
      (health : Int),
      m.health_metrics = some cache →
      (∀ hm ∈ metrics, (lookupA cache (make_hash hm.details)).isSome) →
      (∃ hm ∈ metrics, ∃ v, lookupA cache (make_hash hm.details) = some v ∧
          get_health v hm = .error .valueError) →
      ∃ e, statusLoop m health metrics = .error e := by
  intro metrics
  induction metrics with
  | nil => intro m cache health hc hall hbad; simp at hbad
  | cons hm rest ih =>
    intro m cache health hc hall hbad
    have hsome : (lookupA cache (make_hash hm.details)).isSome :=
      hall hm (List.mem_cons_self hm rest)
    obtain ⟨v, hv⟩ := Option.isSome_iff_exists.mp hsome
    cases hg : get_health v hm with
    | error e =>
      refine ⟨e, ?_⟩
      simp only [statusLoop, hc, hv, hg]
    | ok h =>
      have hrest : ∃ hm0 ∈ rest, ∃ v0, lookupA cache (make_hash hm0.details) = some v0 ∧
          get_health v0 hm0 = .error .valueError := by
        obtain ⟨hm0, hmem, v0, hv0, hbad0⟩ := hbad
        rcases List.mem_cons.mp hmem with heq | hmem0
        · subst heq; rw [hv] at hv0; cases hv0; rw [hbad0] at hg; cases hg
        · exact ⟨hm0, hmem0, v0, hv0, hbad0⟩
      obtain ⟨e, he⟩ := ih m cache (min health h) hc
        (fun x hx => hall x (List.mem_cons_of_mem _ hx)) hrest
      refine ⟨e, ?_⟩
      simp only [statusLoop, hc, hv, hg]
      exact he

/-- The metric of the C2 counterexample: operator `<=` with feelings ordered
validly for it (thresholds ascend as the walk descends the ordinals). -/
def metricC2 : HealthMetric :=
  { details := [], feelings := [(0, 30), (1, 20), (2, 10)],
    feeling_comparison_operator := .le }

/-- C2 counterexample: the claim says get_health raises exactly when
`operator(currentThreshold, lastTarget)` FAILS to hold at some step.  At the
first step of this walk the current threshold is 10 and lastTarget is the
seed 0, and `10 <= 0` fails to hold, so the claim predicts a configuration
error; the code walks through and returns 0 without raising. -/
theorem c2_counterexample :
    CmpOp.apply .le 10 0 = false ∧ get_health 100 metricC2 = .ok 0 := by
  decide

/-- C2 (amended): get_health raises the configuration error exactly when, in
the descending walk with lastTarget seeded 0, a step is reached (no earlier
step satisfied the sample test) at which `operator(currentThreshold,
lastTarget)` HOLDS — not fails; and when such an error occurs for a metric of
a labourer (all metric samples being cached), get_labourer_status returns an
error and no status. -/
theorem c2_raise_polarity_and_propagation :
    (∀ (value : Int) (metric : HealthMetric),
        (get_health value metric = .error .valueError ↔
          raiseConditionSpec metric.feeling_comparison_operator value
            (sortDesc metric.feelings) 0 = true)) ∧
    (∀ (m : EcologyManager) (cache : List (Details × Int)) (l : Labourer),
        m.health_metrics = some cache →
        (∀ hm ∈ l.health_metrics, (lookupA cache (make_hash hm.details)).isSome) →
        (∃ hm ∈ l.health_metrics, ∃ v, lookupA cache (make_hash hm.details) = some v ∧
            get_health v hm = .error .valueError) →
        ∃ e, get_labourer_status m l = .error e) := by
  constructor
  · intro value metric
    exact healthWalk_error_iff _ _ _ _
  · intro m cache l hc hall hbad
    exact statusLoop_error_of_bad_metric l.health_metrics m cache _ hc hall hbad

/-- A metric whose feelings are ordered invalidly for `<=` (thresholds
descend), so its evaluation raises the configuration error. -/
def metricC2bad : HealthMetric :=
  { details := [], feelings := [(1, 20), (2, 30)],
    feeling_comparison_operator := .le }

/-- A manager whose sample cache already holds the sample 100 for the empty
details key, and a labourer owning the invalid metric. -/
def managerC2 : EcologyManager :=
  { running_tasks := [], health_metrics := some [([], 100)],
    task_client := none, cloudwatch_client := fun _ => 0, fetch_log := [] }

def labourerC2 : Labourer := { id := "w", health_metrics := [metricC2bad] }

theorem c2_raise_polarity_and_propagation_witness :
    (get_health 100 metricC2bad = .error .valueError ↔
      raiseConditionSpec .le 100 (sortDesc metricC2bad.feelings) 0 = true) ∧
    (∃ e, get_labourer_status managerC2 labourerC2 = .error e) :=
  ⟨c2_raise_polarity_and_propagation.1 100 metricC2bad,
   c2_raise_polarity_and_propagation.2 managerC2 [([], 100)] labourerC2 rfl
     (by decide)
     ⟨metricC2bad, by simp [labourerC2], 100, rfl, by decide⟩⟩

/- ===================== shared ecology lemmas ===================== -/

theorem lookupA_insertA_self {α β : Type} [DecidableEq α] :
    ∀ (l : List (α × β)) (k : α) (v : β), lookupA (insertA l k v) k = some v
  | [], k, v => by simp [insertA, lookupA]
  | (a, b) :: rest, k, v => by
    by_cases h : a = k
    · simp [insertA, lookupA, h]
    · simp [insertA, lookupA, h, lookupA_insertA_self rest k v]

theorem ecoStatusesTop : (listMax (ECO_STATUSES.map Prod.fst)).getD 0 = (4 : Int) := by
  decide

/-- The per-metric statuses of a list of metrics whose samples are all held in
the given cache: metric number i has cached sample vᵢ and `get_health vᵢ`
returns ordinal sᵢ. -/
def cachedStatuses (cache : List (Details × Int)) : List HealthMetric → List Int → Prop
  | [], [] => True
  | hm :: hms, s :: ss =>
    (∃ v, lookupA cache (make_hash hm.details) = some v ∧ get_health v hm = .ok s) ∧
      cachedStatuses cache hms ss
  | _, _ => False

theorem statusLoop_all_cached :
    ∀ (metrics : List HealthMetric) (ss : List Int) (m : EcologyManager)
      (cache : List (Details × Int)) (health : Int),
      m.health_metrics = some cache →
      cachedStatuses cache metrics ss →
      statusLoop m health metrics = .ok (List.foldl min health ss, m) := by
  intro metrics
  induction metrics with
  | nil =>
    intro ss m cache health hc hs
    cases ss with
    | nil => simp [statusLoop]
    | cons s ss => simp [cachedStatuses] at hs
  | cons hm rest ih =>
    intro ss m cache health hc hs
    cases ss with
    | nil => simp [cachedStatuses] at hs
    | cons s ss =>
      simp only [cachedStatuses] at hs
      obtain ⟨⟨v, hv, hg⟩, hrest⟩ := hs
      simp only [statusLoop, hc, hv, hg, List.foldl]
      exact ih ss m cache (min health s) hc hrest

/- ===================== claim C6 ===================== -/

/-- C6: for every labourer whose metric samples are cached, the status is the
minimum of the per-metric statuses over all its health metrics, starting from
the maximum ordinal High(4); in particular statuses 3 and 1 reduce to 1, and
a labourer with no health metrics has status 4 (the empty fold). -/
theorem c6_min_reduction (m : EcologyManager) (cache : List (Details × Int)) (l : Labourer)
    (ss : List Int) (hc : m.health_metrics = some cache)
    (hs : cachedStatuses cache l.health_metrics ss) :
    get_labourer_status m l = .ok (List.foldl min 4 ss, m) := by
  simp only [get_labourer_status, ecoStatusesTop]
  exact statusLoop_all_cached l.health_metrics ss m cache 4 hc hs

def metricC6a : HealthMetric :=
  { details := [("metric", "a")], feelings := [(3, 50)], feeling_comparison_operator := .le }

def metricC6b : HealthMetric :=
  { details := [("metric", "b")], feelings := [(1, 40)], feeling_comparison_operator := .le }

def cacheC6 : List (Details × Int) := [([("metric", "a")], 35), ([("metric", "b")], 35)]

def managerC6 : EcologyManager :=
  { running_tasks := [], health_metrics := some cacheC6,
    task_client := none, cloudwatch_client := fun _ => 0, fetch_log := [] }

def labourerC6 : Labourer := { id := "w6", health_metrics := [metricC6a, metricC6b] }

def labourerC6empty : Labourer := { id := "e6", health_metrics := [] }

theorem c6_min_reduction_witness :
    get_labourer_status managerC6 labourerC6 = .ok (1, managerC6) ∧
    get_labourer_status managerC6 labourerC6empty = .ok (4, managerC6) := by
  constructor
  · have h := c6_min_reduction managerC6 cacheC6 labourerC6 [3, 1] rfl
      ⟨⟨35, by decide, by decide⟩, ⟨35, by decide, by decide⟩, trivial⟩
    have hmin : List.foldl min (4 : Int) [3, 1] = 1 := by decide
    rw [hmin] at h
    exact h
  · have h := c6_min_reduction managerC6 cacheC6 labourerC6empty [] rfl trivial
    exact h

/- ===================== claim C7 ===================== -/

/-- C7: cache-by-content-hash behavior for a metric: a miss fetches exactly
once (the trace grows by exactly that query) and stores the sample under the
hash; re-evaluating from the resulting state is a hit that leaves the state
and thus the trace unchanged, so two evaluations trigger exactly one external
metrics call; while the hash is cached, evaluation makes no external call. -/
theorem c7_sample_cache (m : EcologyManager) (cache : List (Details × Int))
    (hm : HealthMetric) (l : Labourer) (s : Int)
    (hl : l.health_metrics = [hm])
    (hc : m.health_metrics = some cache) :
    ((lookupA cache (make_hash hm.details) = none →
        get_health (m.cloudwatch_client hm.details) hm = .ok s →
        ∃ m1, get_labourer_status m l = .ok (min 4 s, m1) ∧
          m1.fetch_log = m.fetch_log ++ [hm.details] ∧
          m1.health_metrics =
            some (insertA cache (make_hash hm.details) (m.cloudwatch_client hm.details)) ∧
          get_labourer_status m1 l = .ok (min 4 s, m1)) ∧
     (∀ v, lookupA cache (make_hash hm.details) = some v →
        get_health v hm = .ok s →
        get_labourer_status m l = .ok (min 4 s, m))) := by
  constructor
  · intro hmiss hok
    refine ⟨{ m with
        fetch_log := m.fetch_log ++ [hm.details],
        health_metrics :=
          some (insertA cache (make_hash hm.details) (m.cloudwatch_client hm.details)) },
      ?_, rfl, rfl, ?_⟩
    · simp only [get_labourer_status, ecoStatusesTop, hl, statusLoop, hc, hmiss,
        fetch_metric_stats, lookupA_insertA_self, hok]
    · simp only [get_labourer_status, ecoStatusesTop, hl]
      exact statusLoop_all_cached [hm] [s] _ _ 4 rfl
        ⟨⟨m.cloudwatch_client hm.details, lookupA_insertA_self cache _ _, hok⟩, trivial⟩
  · intro v hhit hok
    simp only [get_labourer_status, ecoStatusesTop, hl]
    exact statusLoop_all_cached [hm] [s] m cache 4 hc ⟨⟨v, hhit, hok⟩, trivial⟩

def metricC7 : HealthMetric :=
  { details := [("metric", "c7")], feelings := [(3, 50)], feeling_comparison_operator := .le }

def managerC7 : EcologyManager :=
  { running_tasks := [], health_metrics := some [],
    task_client := none, cloudwatch_client := fun _ => 35, fetch_log := [] }

def labourerC7 : Labourer := { id := "w7", health_metrics := [metricC7] }

theorem c7_sample_cache_witness :
    ∃ m1, get_labourer_status managerC7 labourerC7 = .ok (3, m1) ∧
      m1.fetch_log = [[("metric", "c7")]] ∧
      get_labourer_status m1 labourerC7 = .ok (3, m1) := by
  have h := (c7_sample_cache managerC7 [] metricC7 labourerC7 3 rfl rfl).1 (by decide) (by decide)
  obtain ⟨m1, h1, h2, _h3, h4⟩ := h
  have hmin : min (4 : Int) 3 = 3 := by decide
  rw [hmin] at h1 h4
  exact ⟨m1, h1, by simpa [managerC7] using h2, h4⟩

/- ===================== claim C8 ===================== -/

/-- C8: register_task_manager sets the task collaborator and empties both the
running-task-counter cache and the metric-sample cache; afterwards a count
query returns the collaborator value freshly fetched, and a status query on a
one-metric labourer fetches the sample from the metrics client (the trace
grows by that query). -/
theorem c8_register_resets (m : EcologyManager) (tm : TaskManagerRef) (l : Labourer) :
    (register_task_manager m tm).running_tasks = [] ∧
    (register_task_manager m tm).health_metrics = some [] ∧
    (register_task_manager m tm).task_client = some tm ∧
    count_running_tasks_for_labourer (register_task_manager m tm) l =
      .ok (tm.get_count_of_running_tasks_for_labourer l,
        { register_task_manager m tm with
            running_tasks := [(l.id, tm.get_count_of_running_tasks_for_labourer l)] }) ∧
    (∀ hm s, l.health_metrics = [hm] →
      get_health (m.cloudwatch_client hm.details) hm = .ok s →
      ∃ m1, get_labourer_status (register_task_manager m tm) l = .ok (min 4 s, m1) ∧
        m1.fetch_log = m.fetch_log ++ [hm.details]) := by
  refine ⟨rfl, rfl, rfl, ?_, ?_⟩
  · simp [count_running_tasks_for_labourer, register_task_manager, lookupA, insertA]
  · intro hm s hl hok
    have h := (c7_sample_cache (register_task_manager m tm) [] hm l s hl rfl).1
      (by simp [lookupA]) hok
    obtain ⟨m1, h1, h2, h3, _⟩ := h
    exact ⟨m1, h1, h2⟩

def tmC8 : TaskManagerRef :=
  { get_count_of_running_tasks_for_labourer := fun _ => 7,
    get_average_labourer_duration := fun _ => 11 }

def metricC8 : HealthMetric :=
  { details := [("metric", "c8")], feelings := [(3, 50)], feeling_comparison_operator := .le }

def labourerC8 : Labourer := { id := "w8", health_metrics := [metricC8] }

def managerC8 : EcologyManager := initialEcologyManager (fun _ => 35)

theorem c8_register_resets_witness :
    (register_task_manager managerC8 tmC8).health_metrics = some [] ∧
    count_running_tasks_for_labourer (register_task_manager managerC8 tmC8) labourerC8 =
      .ok (7, { register_task_manager managerC8 tmC8 with running_tasks := [("w8", 7)] }) ∧
    (∃ m1, get_labourer_status (register_task_manager managerC8 tmC8) labourerC8 =
      .ok (3, m1) ∧ m1.fetch_log = [[("metric", "c8")]]) := by
  obtain ⟨_h1, h2, _h3, h4, h5⟩ := c8_register_resets managerC8 tmC8 labourerC8
  refine ⟨h2, h4, ?_⟩
  obtain ⟨m1, hs1, hs2⟩ := h5 metricC8 3 rfl (by decide)
  have hmin : min (4 : Int) 3 = 3 := by decide
  rw [hmin] at hs1
  exact ⟨m1, hs1, by simpa [managerC8, initialEcologyManager] using hs2⟩

/- ===================== claim C9 ===================== -/

/-- C9: count_running_tasks_for_labourer and get_labourer_average_duration
raise RuntimeError exactly when no task collaborator is registered; once one
is registered they return without raising: the count is the cached value if
the labourer id is cached, else the freshly fetched collaborator value, and
the average duration is the collaborator value. -/
theorem c9_collaborator_required (m : EcologyManager) (l : Labourer) :
    (m.task_client = none →
      count_running_tasks_for_labourer m l = .error .runtimeError ∧
      get_labourer_average_duration m l = .error .runtimeError) ∧
    (∀ tc, m.task_client = some tc →
      (∃ m1, count_running_tasks_for_labourer m l =
        .ok ((lookupA m.running_tasks l.id).getD
          (tc.get_count_of_running_tasks_for_labourer l), m1)) ∧
      get_labourer_average_duration m l = .ok (tc.get_average_labourer_duration l)) := by
  constructor
  · intro h
    constructor
    · simp [count_running_tasks_for_labourer, h]
    · simp [get_labourer_average_duration, h]
  · intro tc h
    constructor
    · cases hl : lookupA m.running_tasks l.id with
      | none =>
        simp only [count_running_tasks_for_labourer, h, hl, lookupA_insertA_self,
          Option.getD_some, Option.getD_none]
        exact ⟨_, rfl⟩
      | some c =>
        refine ⟨m, ?_⟩
        simp [count_running_tasks_for_labourer, h, hl]
    · simp [get_labourer_average_duration, h]

def labourerC9 : Labourer := { id := "w9", health_metrics := [] }

def managerC9none : EcologyManager := initialEcologyManager (fun _ => 0)

def tmC9 : TaskManagerRef :=
  { get_count_of_running_tasks_for_labourer := fun _ => 5,
    get_average_labourer_duration := fun _ => 42 }

def managerC9reg : EcologyManager := register_task_manager managerC9none tmC9

theorem c9_collaborator_required_witness :
    (count_running_tasks_for_labourer managerC9none labourerC9 = .error .runtimeError ∧
      get_labourer_average_duration managerC9none labourerC9 = .error .runtimeError) ∧
    (∃ m1, count_running_tasks_for_labourer managerC9reg labourerC9 = .ok (5, m1)) ∧
    get_labourer_average_duration managerC9reg labourerC9 = .ok 42 := by
  have h1 := (c9_collaborator_required managerC9none labourerC9).1 rfl
  have h2 := (c9_collaborator_required managerC9reg labourerC9).2 tmC9 (by rfl)
  obtain ⟨⟨m1, hm1⟩, havg⟩ := h2
  exact ⟨h1, ⟨m1, hm1⟩, havg⟩

/- ===================== claim C10 ===================== -/

/-- C10: before register_task_manager has ever run, the sample cache field is
None, so get_labourer_status on a labourer with at least one metric fails
with the TypeError of a membership test on None (not the RuntimeError used
for a missing collaborator), while a labourer with no metrics still gets 4. -/
theorem c10_uninitialized_cache (cw : Details → Int) (l : Labourer) :
    (initialEcologyManager cw).health_metrics = none ∧
    (l.health_metrics ≠ [] →
      get_labourer_status (initialEcologyManager cw) l = .error .typeError) ∧
    (l.health_metrics = [] →
      get_labourer_status (initialEcologyManager cw) l = .ok (4, initialEcologyManager cw)) ∧
    PyExc.typeError ≠ PyExc.runtimeError := by
  refine ⟨rfl, ?_, ?_, by decide⟩
  · intro hne
    cases hl : l.health_metrics with
    | nil => exact absurd hl hne
    | cons hm rest =>
      simp [get_labourer_status, hl, statusLoop, initialEcologyManager]
  · intro hl
    simp [get_labourer_status, hl, statusLoop, ecoStatusesTop]

def labourerC10 : Labourer :=
  { id := "w10",
    health_metrics :=
      [{ details := [("metric", "c10")], feelings := [(3, 50)],
         feeling_comparison_operator := .le }] }

def labourerC10empty : Labourer := { id := "e10", health_metrics := [] }

theorem c10_uninitialized_cache_witness :
    get_labourer_status (initialEcologyManager (fun _ => 35)) labourerC10 =
      .error .typeError ∧
    get_labourer_status (initialEcologyManager (fun _ => 35)) labourerC10empty =
      .ok (4, initialEcologyManager (fun _ => 35)) := by
  refine ⟨?_, ?_⟩
  · exact (c10_uninitialized_cache (fun _ => 35) labourerC10).2.1 (by simp [labourerC10])
  · exact (c10_uninitialized_cache (fun _ => 35) labourerC10empty).2.2.1 rfl

/- ===================== config.py ===================== -/

/-- A Python value as returned by the configuration getters: a parsed JSON
value (of abstract JSON type J), a raw string, or the empty dict `{}`. -/
inductive PyVal (J : Type) where
  | json : J → PyVal J
  | str : String → PyVal J
  | emptyDict : PyVal J
deriving DecidableEq

/-- Python `s.startswith(p)`. -/
def strStartsWith (s p : String) : Bool := p.data.isPrefixOf s.data

/-- Python `s.endswith(p)`. -/
def strEndsWith (s p : String) : Bool := p.data.isSuffixOf s.data

/-- Replace every occurrence of `pat` in the character list (Python
`str.replace` semantics for a non-empty pattern).  The fuel argument makes
the recursion structural: every step consumes at least one character, so
fuel equal to the length of the list is never exhausted. -/
def replaceAllAux (pat repl : List Char) : Nat → List Char → List Char
  | _, [] => []
  | 0, l => l
  | fuel + 1, c :: cs =>
    if pat.isPrefixOf (c :: cs) then
      repl ++ replaceAllAux pat repl fuel (cs.drop (pat.length - 1))
    else c :: replaceAllAux pat repl fuel cs

/-- Python `s.replace(pat, repl)`: replace every occurrence. -/
def strReplace (s pat repl : String) : String :=
  String.mk (replaceAllAux pat.data repl.data s.data.length s.data)

/-- Modelled from the spec: `chunks` from `sosw.components.helpers` is not
under src/; the spec says discovered names are batched into groups of at most
10 (here: at most `n`) consecutive elements.  The fuel argument makes the
recursion structural: for a positive group size every step consumes at least
one element, so fuel equal to the length of the list is never exhausted. -/
def chunksFuel {α : Type} : Nat → List α → Nat → List (List α)
  | _, [], _ => []
  | 0, l, _ => [l]
  | fuel + 1, x :: rest, n =>
    if n = 0 then [x :: rest]
    else (x :: rest).take n :: chunksFuel fuel ((x :: rest).drop n) n

/-- Batch a list into consecutive groups of at most `n` elements. -/
def chunks {α : Type} (lst : List α) (n : Nat) : List (List α) :=
  chunksFuel lst.length lst n

/-- SSMConfig.get_config, config.py lines 164-191: fetch the single named
parameter (`store` is the external parameter store, name to stored text);
`json.loads` the text, catching only KeyError, IndexError and TypeError, which
become `{}`; a JSON decode failure (a ValueError) is NOT in that tuple and
propagates.  `loads` is the abstract `json.loads`: none models a
json.JSONDecodeError. -/
def ssm_get_config (J : Type) (loads : String → Option J) (store : String → Option String)
    (name : String) : Except PyExc (PyVal J) :=
  let attempt : Except PyExc (PyVal J) :=
    match store name with
    | none => .error .indexError
    | some text =>
      match loads text with
      | some j => .ok (.json j)
      | none => .error .jsonDecodeError
  match attempt with
  | .ok v => .ok v
  | .error e =>
    if e = PyExc.keyError ∨ e = PyExc.indexError ∨ e = PyExc.typeError then .ok .emptyDict
    else .error e

/-- A row of the DynamoDB config table (row_mapper of config.py lines
319-323): env, config_name and config_value, all strings. -/
structure DynRow where
  env : String
  config_name : String
  config_value : String
deriving DecidableEq

/-- The external table service `get_by_query(keys={env, config_name})` with
exact key match, as consumed by DynamoConfig.get_config. -/
def dynamo_get_by_query_eq (store : List DynRow) (env name : String) : List DynRow :=
  store.filter (fun r => r.env == env && r.config_name == name)

/-- DynamoConfig.get_config, config.py lines 333-354: take the first row of
the query result if any; `json.loads` its value under a catch-all `except
Exception`, falling back to the raw value when it is not None, else `{}`. -/
def dynamo_get_config (J : Type) (loads : String → Option J) (store : List DynRow)
    (name env : String) : PyVal J :=
  let items := dynamo_get_by_query_eq store env name
  let config_value : Option String :=
    match items with
    | [] => none
    | item :: _ => some item.config_value
  let attempt : Except PyExc (PyVal J) :=
    match config_value with
    | none => .error .typeError
    | some text =>
      match loads text with
      | some j => .ok (.json j)
      | none => .error .jsonDecodeError
  match attempt with
  | .ok v => v
  | .error _ =>
    match config_value with
    | some text => .str text
    | none => .emptyDict

/-- One parameter of the external SSM ParameterStore: its name, its type
(`String`, `StringList` or `SecureString`), its stored value and its
`Environment` tag. -/
structure SSMParam where
  name : String
  ptype : String
  value : String
  env_tag : String
deriving DecidableEq

/-- The external `describe_parameters` contract used in config.py lines
267-273: parameters filtered by the Environment tag and by name beginning
with the given text. -/
def ssm_describe_parameters (store : List SSMParam) (env_tag begins : String) :
    List SSMParam :=
  store.filter (fun p => p.env_tag == env_tag && strStartsWith p.name begins)

/-- The external `get_parameters(Names=...)` contract used in config.py lines
290-291: the parameters whose names are among the requested ones. -/
def ssm_get_parameters (store : List SSMParam) (names : List String) : List SSMParam :=
  store.filter (fun p => names.contains p.name)

/-- SSMConfig.get_credentials_by_prefix, config.py lines 252-300: pick the
environment tag from test mode, normalize the prefix to end with an
underscore, describe the matching parameter names, return `{}` when none,
else bulk-fetch the names in chunks of 10 and build the result dict keyed by
the name with the prefix text removed, storing Python None for the literal
value "None" and the value itself otherwise. -/
def ssm_env_tag (test : Bool) : String := if !test then "production" else "dev"

/-- Prefix normalization of config.py lines 265 and 376: make the text end
with an underscore. -/
def normalize_und (p : String) : String := if strEndsWith p "_" then p else p ++ "_"

/-- The accumulation loop of config.py lines 288-298: fold the chunks of
discovered names, bulk-fetch each chunk and insert each fetched parameter
into the result dict keyed by the name with the prefix text removed, storing
Python None for the literal value "None". -/
def ssm_creds_build (store : List SSMParam) (pfx : String) (names : List String) :
    List (String × Option String) :=
  (chunks names 10).foldl
    (fun result chunk =>
      (ssm_get_parameters store chunk).foldl
        (fun r2 x =>
          insertA r2 (strReplace x.name pfx "")
            (if x.value ≠ "None" then some x.value else none))
        result)
    []

def ssm_get_credentials_by_prefix (test : Bool) (store : List SSMParam) (pfx0 : String) :
    List (String × Option String) :=
  if ((ssm_describe_parameters store (ssm_env_tag test) (normalize_und pfx0)).map
      SSMParam.name).isEmpty then []
  else
    ssm_creds_build store (normalize_und pfx0)
      ((ssm_describe_parameters store (ssm_env_tag test) (normalize_und pfx0)).map
        SSMParam.name)

/-- The external table service `get_by_query(keys={env, config_name},
comparisons={config_name: begins_with})` used by
DynamoConfig.get_credentials_by_prefix. -/
def dynamo_get_by_query_begins (store : List DynRow) (env begins : String) : List DynRow :=
  store.filter (fun r => r.env == env && strStartsWith r.config_name begins)

/-- DynamoConfig.get_credentials_by_prefix, config.py lines 374-394:
normalize the prefix, force env "dev" under test or for an autotest prefix,
query rows whose name begins with the prefix, opportunistically JSON-parse
each value (`except Exception: pass` keeps the raw string) and key the result
by the name with the prefix text removed.  No substitution of the literal
value "None" happens here. -/
def dynamo_get_credentials_by_prefix (J : Type) (loads : String → Option J) (test : Bool)
    (store : List DynRow) (pfx0 env0 : String) : List (String × PyVal J) :=
  let pfx := if strEndsWith pfx0 "_" then pfx0 else pfx0 ++ "_"
  let env := if test || strStartsWith pfx "autotest_" then "dev" else env0
  let items := dynamo_get_by_query_begins store env pfx
  items.foldl
    (fun res row =>
      let v : PyVal J :=
        match loads row.config_value with
        | some j => .json j
        | none => .str row.config_value
      insertA res (strReplace row.config_name pfx "") v)
    []

/-- The test flag computation of ConfigSource.\_\_init\_\_, config.py line
426: the Python source line is `test or True if os.environ.get("STAGE") ==
"test" else False`, which by operator precedence is the conditional
expression `(test or True) if STAGE == "test" else False`. -/
def configSource_test_flag (test : Bool) (env : String → Option String) : Bool :=
  if env "STAGE" = some "test" then (test || true) else false

/-- The test flag computed inside each backend adapter constructor
(SecretsManager, SSMConfig, DynamoConfig, config.py lines 53-58, 148-153 and
311-315): keep a passed truthy flag, else consult the ambient markers. -/
def backend_adapter_test (test : Bool) (env : String → Option String) : Bool :=
  if test then true
  else decide (env "STAGE" = some "test") || decide (env "autotest" = some "True")

/-- SUPPORTED_SOURCES of config.py line 421. -/
def SUPPORTED_SOURCES : List String := ["Dynamo", "SSM"]

/-- The observable outcome of ConfigSource.\_\_init\_\_, config.py lines
424-460: the resolver test flag, the adapters built per requested source with
the test flag each adapter computes for itself from the passed flag, the
first source as default, and the independently built SecretsManager (built
with no arguments, so with a False flag). -/
structure ConfigSourceState where
  test : Bool
  adapter_tests : List (String × Bool)
  default_source : Option String
  secrets_manager_test : Bool
deriving DecidableEq

/-- ConfigSource.\_\_init\_\_, config.py lines 424-460: compute the resolver
test flag, default the sources to ["Dynamo"], assert every requested source
is supported, and build one adapter per source passing `test=self.test`. -/
def configSource_init (test : Bool) (sources : Option (List String))
    (env : String → Option String) : Except PyExc ConfigSourceState :=
  let t := configSource_test_flag test env
  let srcs := match sources with
    | none => ["Dynamo"]
    | some l => l
  if srcs.all (fun s => SUPPORTED_SOURCES.contains s) then
    .ok { test := t,
          adapter_tests := srcs.map (fun s => (s, backend_adapter_test t env)),
          default_source := srcs.head?,
          secrets_manager_test := backend_adapter_test false env }
  else
    .error .assertionError

/- ===================== claim C3 ===================== -/

def storeC3 : String → Option String := fun n => if n = "a" then some "hello" else none

/-- C3 counterexample: the claim says get(name) never raises for a parse
failure of the stored text on either backend.  On the SSM backend a stored
text that fails to parse as JSON (modelled by a loads returning none) raises
the JSON decode error: json.JSONDecodeError is a ValueError and is not in
the caught (KeyError, IndexError, TypeError) tuple; the raw text is never
returned either. -/
theorem c3_counterexample :
    ssm_get_config Unit (fun _ => none) storeC3 "a" = .error .jsonDecodeError := by
  decide

/-- C3 (amended): on the Dynamo backend get_config returns the JSON-parsed
value when the stored text parses, otherwise the raw stored text, and the
empty mapping when the name is absent, never raising; on the SSM backend
get_config returns the parsed value when the text parses and the empty
mapping when the name is absent, but a present text that fails to parse
raises the JSON decode error and the raw text is never returned. -/
theorem c3_get_config_backends :
    (∀ (J : Type) (loads : String → Option J) (store : List DynRow) (name env : String),
        (dynamo_get_by_query_eq store env name = [] →
          dynamo_get_config J loads store name env = .emptyDict) ∧
        (∀ row rest, dynamo_get_by_query_eq store env name = row :: rest →
          ((∀ j, loads row.config_value = some j →
              dynamo_get_config J loads store name env = .json j) ∧
           (loads row.config_value = none →
              dynamo_get_config J loads store name env = .str row.config_value)))) ∧
    (∀ (J : Type) (loads : String → Option J) (store : String → Option String) (name : String),
        (store name = none → ssm_get_config J loads store name = .ok .emptyDict) ∧
        (∀ text, store name = some text →
          ((∀ j, loads text = some j →
              ssm_get_config J loads store name = .ok (.json j)) ∧
           (loads text = none →
              ssm_get_config J loads store name = .error .jsonDecodeError)))) := by
  constructor
  · intro J loads store name env
    constructor
    · intro h
      simp [dynamo_get_config, h]
    · intro row rest h
      constructor
      · intro j hj
        simp [dynamo_get_config, h, hj]
      · intro hn
        simp [dynamo_get_config, h, hn]
  · intro J loads store name
    constructor
    · intro h
      simp [ssm_get_config, h]
    · intro text h
      constructor
      · intro j hj
        simp [ssm_get_config, h, hj]
      · intro hn
        simp [ssm_get_config, h, hn]

theorem c3_get_config_backends_witness :
    dynamo_get_config Unit (fun _ => none) [] "a" "production" = .emptyDict ∧
    ssm_get_config Unit (fun _ => none) (fun _ => none) "a" = .ok .emptyDict :=
  ⟨(c3_get_config_backends.1 Unit (fun _ => none) [] "a" "production").1 rfl,
   (c3_get_config_backends.2 Unit (fun _ => none) (fun _ => none) "a").1 rfl⟩

/- ===================== claim C4 ===================== -/

/-- C4: the claim says an explicit test=True puts the resolver in test mode
and propagates it into every adapter regardless of ambient markers.  In the
code, operator precedence makes line 426 parse as the conditional expression
`(test or True) if STAGE == "test" else False`, so with no ambient STAGE
marker an explicit test=True is ignored: the resolver flag is False and
every adapter receives False and computes False.  The explicit parameter is
dead code (`test or True` is always True) while the sibling adapter
constructors in the same file implement flag OR ambient, so the code is a
slip: code_bug. -/
theorem c4_explicit_test_flag_ignored :
    configSource_test_flag true (fun _ => none) = false ∧
    configSource_init true (some ["Dynamo", "SSM"]) (fun _ => none) =
      .ok { test := false,
            adapter_tests := [("Dynamo", false), ("SSM", false)],
            default_source := some "Dynamo",
            secrets_manager_test := false } := by
  constructor
  · rfl
  · decide

/- ===================== claim C5 ===================== -/

def rowsC5 : List DynRow :=
  [{ env := "production", config_name := "pre_key", config_value := "None" }]

/-- C5 counterexample: the claim says that on either backend an entry whose
stored value equals the literal "None" is returned as a null/absent value.
On the Dynamo backend a stored credential value "None" (not valid JSON, so
the opportunistic parse keeps the raw string) is surfaced as the
three-character literal string, with no substitution. -/
theorem c5_counterexample :
    dynamo_get_credentials_by_prefix Unit (fun _ => none) false rowsC5 "pre" "production" =
      [("key", .str "None")] := by
  decide

theorem lookupA_mem {α β : Type} [DecidableEq α] :
    ∀ (l : List (α × β)) (k : α) (w : β), lookupA l k = some w → (k, w) ∈ l
  | [], k, w => by simp [lookupA]
  | (a, b) :: rest, k, w => by
    simp only [lookupA]
    by_cases h : a = k
    · subst h
      simp only [if_pos rfl]
      intro hw
      injection hw with hbw
      subst hbw
      exact List.mem_cons_self _ _
    · simp only [if_neg h]
      intro hw
      exact List.mem_cons_of_mem _ (lookupA_mem rest k w hw)

theorem insertA_forall_values {α β : Type} [DecidableEq α] (P : β → Prop) :
    ∀ (l : List (α × β)) (k : α) (v : β),
      (∀ p ∈ l, P p.2) → P v → ∀ p ∈ insertA l k v, P p.2
  | [], k, v => by
    intro h hv p hp
    simp [insertA] at hp
    subst hp
    exact hv
  | (a, b) :: rest, k, v => by
    intro h hv p hp
    simp only [insertA] at hp
    by_cases hak : a = k
    · rw [if_pos hak] at hp
      rcases List.mem_cons.mp hp with rfl | hmem
      · exact hv
      · exact h p (List.mem_cons_of_mem _ hmem)
    · rw [if_neg hak] at hp
      rcases List.mem_cons.mp hp with rfl | hmem
      · exact h (a, b) (List.mem_cons_self _ _)
      · exact insertA_forall_values P rest k v
          (fun q hq => h q (List.mem_cons_of_mem _ hq)) hv p hmem

theorem ssm_fold_values (pfx : String) :
    ∀ (params : List SSMParam) (r : List (String × Option String)),
      (∀ p ∈ r, p.2 ≠ some "None") →
      ∀ p ∈ params.foldl
          (fun r2 x => insertA r2 (strReplace x.name pfx "")
            (if x.value ≠ "None" then some x.value else none)) r,
        p.2 ≠ some "None"
  | [], r => fun h => h
  | x :: rest, r => by
    intro h
    refine ssm_fold_values pfx rest _ ?_
    refine insertA_forall_values (fun w => w ≠ some "None") r _ _ h ?_
    by_cases hx : x.value = "None"
    · simp [hx]
    · simp [hx]

theorem ssm_chunks_fold_values (store : List SSMParam) (pfx : String) :
    ∀ (chs : List (List String)) (r : List (String × Option String)),
      (∀ p ∈ r, p.2 ≠ some "None") →
      ∀ p ∈ chs.foldl
          (fun result chunk =>
            (ssm_get_parameters store chunk).foldl
              (fun r2 x => insertA r2 (strReplace x.name pfx "")
                (if x.value ≠ "None" then some x.value else none)) result) r,
        p.2 ≠ some "None"
  | [], r => fun h => h
  | ch :: rest, r => by
    intro h
    exact ssm_chunks_fold_values store pfx rest _
      (ssm_fold_values pfx (ssm_get_parameters store ch) r h)

theorem ssm_build_values (store : List SSMParam) (pfx : String) (names : List String) :
    ∀ p ∈ ssm_creds_build store pfx names, p.2 ≠ some "None" := by
  intro p hp
  exact ssm_chunks_fold_values store pfx (chunks names 10) [] (by simp) p hp

theorem c5_all_values (test : Bool) (store : List SSMParam) (pfx0 : String) :
    ∀ p ∈ ssm_get_credentials_by_prefix test store pfx0, p.2 ≠ some "None" := by
  intro p hp
  unfold ssm_get_credentials_by_prefix at hp
  split at hp
  · simp at hp
  · exact ssm_build_values store _ _ p hp

def ssmStoreC5 : List SSMParam :=
  [{ name := "pre_key", ptype := "SecureString", value := "None", env_tag := "production" }]

/-- C5 (amended): on the SSM backend an entry whose stored value equals the
literal "None" is surfaced as a null/absent value: the result never maps any
key to the literal string "None", and a concrete stored "None" yields a none
entry.  The Dynamo backend performs no such substitution and surfaces the
literal string (see the counterexample). -/
theorem c5_none_sentinel :
    (∀ (test : Bool) (store : List SSMParam) (pfx0 k : String),
        lookupA ( ssm_get_credentials_by_prefix test store pfx0) k ≠ some (some "None")) ∧
    ssm_get_credentials_by_prefix false ssmStoreC5 "pre" = [("key", none)] := by
  constructor
  · intro test store pfx0 k hk
    exact c5_all_values test store pfx0 (k, some "None") (lookupA_mem _ _ _ hk) rfl
  · decide

theorem c5_none_sentinel_witness :
    lookupA ( ssm_get_credentials_by_prefix false ssmStoreC5 "pre") "key" ≠
      some (some "None") :=
  c5_none_sentinel.1 false ssmStoreC5 "pre" "key"
